/-
Shallow embedding of the CHIP-8 virtual machine core from src/chip8.h and
src/chip8.cpp (primary revision, the one that includes the keyboard state,
the `Ordering` checks in Handle_8 and the wrapping Handle_D).

Modelling conventions:
* machine integers are Nat with explicit `% 256` / `% 65536` at the points
  where the C++ code performs uint8_t / uint16_t arithmetic that can wrap;
* the fixed-size arrays (mRAM, mRegisters, mStackFrames) and the keyboard
  bitset are total functions Nat → Nat / Nat → Bool; a write is a pointwise
  function update.  A write outside the C++ array extent (possible only in
  the keyboard-consume loop, where `mRegisters[0xFF]` is undefined
  behaviour in C++, and in the off-by-one block copy of Handle_F) is kept
  as a function update at that index, which leaves the in-range cells
  untouched and makes the out-of-range access observable in theorems;
* `OnError(msg)`, which throws std::runtime_error, is Except.error msg;
* `rand()` is an oracle value passed to the dispatcher.
-/
import Mathlib

set_option maxRecDepth 8000

deriving instance DecidableEq for Except

namespace emu

/-- Pointwise update of a function, modelling an array store `f[k] = v`. -/
def updFn (f : Nat → Nat) (k v : Nat) : Nat → Nat :=
  fun a => if a = k then v else f a

/-- `bswap` from chip8.cpp: `o = ((val >> 8) & 0x00FF) | ((val << 8) & 0xFF00)`
on uint16_t, as arithmetic on Nat. -/
def bswap (v : Nat) : Nat := v / 256 % 256 + v % 256 * 256

def kDisplayStart : Nat := 0x0F00
def kDisplaySize : Nat := 0x00FF
def kDisplayWidth : Nat := 64
def kDisplayHeight : Nat := 32
def kCharacterSpritesStart : Nat := 0x0010

/-- The 16 built-in 5-byte glyph sprites (chip8.cpp kCharacterSprites). -/
def kCharacterSprites : List Nat :=
  [ 0xF0, 0x90, 0x90, 0x90, 0xF0
  , 0x60, 0xA0, 0x20, 0x20, 0xF0
  , 0xF0, 0x10, 0xF0, 0x80, 0xF0
  , 0xF0, 0x10, 0xF0, 0x10, 0xF0
  , 0x90, 0x90, 0xF0, 0x10, 0x10
  , 0xF0, 0x80, 0xF0, 0x10, 0xF0
  , 0xF0, 0x80, 0xF0, 0x90, 0xF0
  , 0xF0, 0x10, 0x10, 0x10, 0x10
  , 0xF0, 0x90, 0xF0, 0x90, 0xF0
  , 0xF0, 0x90, 0xF0, 0x10, 0x10
  , 0xF0, 0x90, 0xF0, 0x90, 0x90
  , 0xE0, 0x90, 0xE0, 0x90, 0xE0
  , 0xF0, 0x80, 0x80, 0x80, 0xF0
  , 0xE0, 0x90, 0x90, 0x90, 0xE0
  , 0xF0, 0x80, 0xF0, 0x80, 0xF0
  , 0xF0, 0x80, 0xF0, 0x80, 0x80 ]

/-- The engine state (class CHIP8, chip8.h).  mDisplayBuffer is omitted:
it is only read by NeedsRedraw/Draw, which no claim refers to. -/
structure CHIP8 where
  mRAM : Nat → Nat
  mRegisters : Nat → Nat
  mPC : Nat
  mI : Nat
  mDelayTimer : Nat
  mSoundTimer : Nat
  mKeyboard : Nat → Bool
  mKeyboardRegister : Nat
  mStackFrames : Nat → Nat
  mStack : Nat

/-- CHIP8::CHIP8(): everything zeroed, mKeyboardRegister = 0xFF. -/
def initCHIP8 : CHIP8 :=
  { mRAM := fun _ => 0
  , mRegisters := fun _ => 0
  , mPC := 0
  , mI := 0
  , mDelayTimer := 0
  , mSoundTimer := 0
  , mKeyboard := fun _ => false
  , mKeyboardRegister := 0xFF
  , mStackFrames := fun _ => 0
  , mStack := 0 }

inductive Program where
  | CHIP8
  | ETI660

/-- Copy `data` into `ram` starting at `start` (std::copy / memcpy of a
byte buffer). -/
def writeBytes (ram : Nat → Nat) (start : Nat) (data : List Nat) : Nat → Nat :=
  fun a => if start ≤ a ∧ a < start + data.length then data.getD (a - start) 0 else ram a

/-- The load-type-dependent start offset (the ternary in CHIP8::Load). -/
def progOffset : Program → Nat
  | Program.CHIP8 => 0x200
  | Program.ETI660 => 0x600

/-- CHIP8::Load: returns (loaded, new state).  The ROM is its byte list. -/
def Load (data : List Nat) (ptype : Program) (m : CHIP8) : Bool × CHIP8 :=
  let offset : Nat := progOffset ptype
  if data.length + offset < 4096 then
    (true,
      { m with
        mRAM := writeBytes (writeBytes m.mRAM offset data) kCharacterSpritesStart kCharacterSprites
        mPC := offset })
  else
    (false, m)

/-- CHIP8::ReadInstruction.  The memcpy into a uint16_t on a little-endian
host reads `mRAM[pc] + mRAM[pc+1] * 256`, which bswap turns into the
big-endian combination. -/
def ReadInstruction (m : CHIP8) : Except String (Nat × CHIP8) :=
  if m.mPC + 2 ≥ 4096 then
    .error ("Program counter left RAM")
  else
    .ok (bswap (m.mRAM m.mPC + m.mRAM (m.mPC + 1) * 256),
         { m with mPC := (m.mPC + 2) % 65536 })

/-- CHIP8::Handle_0 (00E0 clear display, 00EE return). -/
def Handle_0 (ins : Nat) (m : CHIP8) : Except String CHIP8 :=
  let program := ins % 4096
  if program = 0x00E0 then
    .ok { m with mRAM := fun a =>
            if kDisplayStart ≤ a ∧ a < kDisplayStart + kDisplaySize then 0 else m.mRAM a }
  else if program = 0x00EE then
    if m.mStack = 0 then .error ("Out of stack frames")
    else
      let address := m.mStackFrames (m.mStack - 1)
      if address ≥ 4096 then .error ("Invalid address on stack")
      else .ok { m with mStack := m.mStack - 1, mPC := address }
  else .error ("Unhandled instruction")

/-- CHIP8::Handle_1 (1NNN jump). -/
def Handle_1 (ins : Nat) (m : CHIP8) : Except String CHIP8 :=
  .ok { m with mPC := ins % 4096 }

/-- CHIP8::Handle_2 (2NNN call). -/
def Handle_2 (ins : Nat) (m : CHIP8) : Except String CHIP8 :=
  if m.mStack + 1 > 24 then .error ("Out of stack frames")
  else
    .ok { m with
      mStackFrames := updFn m.mStackFrames m.mStack m.mPC
      mStack := m.mStack + 1
      mPC := ins % 4096 }

/-- CHIP8::Handle_3 (3XNN skip if VX == NN). -/
def Handle_3 (ins : Nat) (m : CHIP8) : Except String CHIP8 :=
  let reg := ins / 256 % 16
  let val := ins % 256
  if m.mRegisters reg = val then
    if m.mPC + 2 ≥ 4096 then .error ("Branching outside of RAM")
    else .ok { m with mPC := (m.mPC + 2) % 65536 }
  else .ok m

/-- CHIP8::Handle_4 (4XNN skip if VX != NN). -/
def Handle_4 (ins : Nat) (m : CHIP8) : Except String CHIP8 :=
  let reg := ins / 256 % 16
  let val := ins % 256
  if m.mRegisters reg ≠ val then
    if m.mPC + 2 ≥ 4096 then .error ("Branching outside of RAM")
    else .ok { m with mPC := (m.mPC + 2) % 65536 }
  else .ok m

/-- CHIP8::Handle_5 (5XY0 skip if VX == VY). -/
def Handle_5 (ins : Nat) (m : CHIP8) : Except String CHIP8 :=
  let rx := ins / 256 % 16
  let ry := ins / 16 % 16
  let op := ins % 16
  if op = 0 then
    if m.mRegisters rx = m.mRegisters ry then
      if m.mPC + 2 ≥ 4096 then .error ("Branching outside of RAM")
      else .ok { m with mPC := (m.mPC + 2) % 65536 }
    else .ok m
  else .error ("Unhandled instruction")

/-- CHIP8::Handle_6 (6XNN load immediate). -/
def Handle_6 (ins : Nat) (m : CHIP8) : Except String CHIP8 :=
  let reg := ins / 256 % 16
  let val := ins % 256
  .ok { m with mRegisters := updFn m.mRegisters reg val }

/-- CHIP8::Handle_7 (7XNN add immediate, uint8_t wrap). -/
def Handle_7 (ins : Nat) (m : CHIP8) : Except String CHIP8 :=
  let reg := ins / 256 % 16
  let val := ins % 256
  .ok { m with mRegisters := updFn m.mRegisters reg ((m.mRegisters reg + val) % 256) }

/-- CHIP8::Handle_8 (register-register ALU group).  `x` is a reference to
mRegisters[rx], `y` a value copy of mRegisters[ry]; in the flag-writing
cases the source checks rx/ry against 0xF before touching anything, so
after the check the flag write and the x write target distinct cells and
reads of the reference `x` after a flag write are modelled by reading the
updated register file. -/
def Handle_8 (ins : Nat) (m : CHIP8) : Except String CHIP8 :=
  let rx := ins / 256 % 16
  let ry := ins / 16 % 16
  let op := ins % 16
  let x := m.mRegisters rx
  let y := m.mRegisters ry
  if op = 0x0 then .ok { m with mRegisters := updFn m.mRegisters rx y }
  else if op = 0x1 then .ok { m with mRegisters := updFn m.mRegisters rx (x ||| y) }
  else if op = 0x2 then .ok { m with mRegisters := updFn m.mRegisters rx (x &&& y) }
  else if op = 0x3 then .ok { m with mRegisters := updFn m.mRegisters rx (x ^^^ y) }
  else if op = 0x4 then
    if rx = 0xF ∨ ry = 0xF then .error ("Ordering")
    else
      let carry := x + y > 0xFF
      let regs2 := updFn (updFn m.mRegisters rx ((x + y) % 256)) 0xF (if carry then 1 else 0)
      .ok { m with mRegisters := regs2 }
  else if op = 0x5 then
    if rx = 0xF ∨ ry = 0xF then .error ("Ordering")
    else
      let borrow := x < y
      let regs2 := updFn (updFn m.mRegisters rx ((x + 256 - y) % 256)) 0xF (if borrow then 0 else 1)
      .ok { m with mRegisters := regs2 }
  else if op = 0x7 then
    if rx = 0xF ∨ ry = 0xF then .error ("Ordering")
    else
      let borrow := y < x
      let regs2 := updFn (updFn m.mRegisters rx ((y + 256 - x) % 256)) 0xF (if borrow then 0 else 1)
      .ok { m with mRegisters := regs2 }
  else if op = 0x6 then
    if rx = 0xF ∨ ry = 0xF then .error ("Ordering")
    else
      let regs1 := updFn m.mRegisters 0xF (x % 2)
      .ok { m with mRegisters := updFn regs1 rx (regs1 rx / 2) }
  else if op = 0xE then
    if rx = 0xF ∨ ry = 0xF then .error ("Ordering")
    else
      let regs1 := updFn m.mRegisters 0xF (x / 128 % 2)
      .ok { m with mRegisters := updFn regs1 rx (regs1 rx * 2 % 256) }
  else .error ("Unhandled instruction")

/-- CHIP8::Handle_9 (9XY0 skip if VX != VY). -/
def Handle_9 (ins : Nat) (m : CHIP8) : Except String CHIP8 :=
  let rx := ins / 256 % 16
  let ry := ins / 16 % 16
  let op := ins % 16
  if op = 0 then
    if m.mRegisters rx ≠ m.mRegisters ry then
      if m.mPC + 2 ≥ 4096 then .error ("Branching outside of RAM")
      else .ok { m with mPC := (m.mPC + 2) % 65536 }
    else .ok m
  else .error ("Unhandled instruction")

/-- CHIP8::Handle_A (ANNN load I). -/
def Handle_A (ins : Nat) (m : CHIP8) : Except String CHIP8 :=
  .ok { m with mI := ins % 4096 }

/-- CHIP8::Handle_B (BNNN jump with offset). -/
def Handle_B (ins : Nat) (m : CHIP8) : Except String CHIP8 :=
  let address := ins % 4096
  if m.mRegisters 0 + address > 4096 then .error ("Trying to jump out of RAM")
  else .ok { m with mPC := (m.mRegisters 0 + address) % 65536 }

/-- CHIP8::Handle_C (CXNN random AND mask); `rnd` is the rand() oracle. -/
def Handle_C (rnd ins : Nat) (m : CHIP8) : Except String CHIP8 :=
  let reg := ins / 256 % 16
  let mask := ins % 256
  .ok { m with mRegisters := updFn m.mRegisters reg (rnd &&& mask) }

/-- One inner-loop iteration of the Handle_D blit for (srcY, srcX) = p.
`acc.1` is the whole mRAM (displayData and srcData both point into it),
`acc.2` the flippedOff flag.  `byte & (1 << k)` as a boolean is
Nat.testBit byte k, and `pixelNum - 8 * pixelBlockNum` is the source's
spelling of `pixelNum % 8`. -/
def blitStep (i baseX baseY : Nat) (acc : (Nat → Nat) × Bool) (p : Nat × Nat) :
    (Nat → Nat) × Bool :=
  let ram := acc.1
  let srcY := p.1
  let srcX := p.2
  let dispX := (srcX + baseX) % kDisplayWidth
  let dispY := (srcY + baseY) % kDisplayHeight
  let pixelNum := dispY * kDisplayWidth + dispX
  let pixelBlockNum := pixelNum / 8
  let pixelBlockBit := 7 - (pixelNum - 8 * pixelBlockNum)
  let dstBlock := ram (kDisplayStart + pixelBlockNum)
  let srcBit := Nat.testBit (ram (i + srcY)) (7 - srcX)
  let dstBit := Nat.testBit dstBlock pixelBlockBit
  let flipped := acc.2 || (srcBit && dstBit)
  let dstBlock2 := dstBlock ^^^ ((if srcBit then 1 else 0) * 2 ^ pixelBlockBit)
  (updFn ram (kDisplayStart + pixelBlockNum) dstBlock2, flipped)

/-- The nested blit loops of CHIP8::Handle_D. -/
def blit (ram : Nat → Nat) (i baseX baseY n : Nat) : (Nat → Nat) × Bool :=
  (List.range n).foldl
    (fun acc srcY =>
      (List.range 8).foldl (fun acc2 srcX => blitStep i baseX baseY acc2 (srcY, srcX)) acc)
    (ram, false)

/- Derived bookkeeping for the blit (used to reason about Handle_D). -/

/-- The linear pixel number targeted by blit iteration p = (srcY, srcX):
dispY * width + dispX with both coordinates wrapped. -/
def pixelNumOf (baseX baseY : Nat) (p : Nat × Nat) : Nat :=
  (p.1 + baseY) % kDisplayHeight * kDisplayWidth + (p.2 + baseX) % kDisplayWidth

/-- The RAM address blit iteration p writes. -/
def pixAddr (baseX baseY : Nat) (p : Nat × Nat) : Nat :=
  kDisplayStart + pixelNumOf baseX baseY p / 8

/-- The bit position blit iteration p flips inside that byte. -/
def pixBit (baseX baseY : Nat) (p : Nat × Nat) : Nat :=
  7 - pixelNumOf baseX baseY p % 8

/-- The sprite bit blit iteration p reads (bit 7 − srcX of the byte at
i + srcY). -/
def srcBitOf (src : Nat → Nat) (i : Nat) (p : Nat × Nat) : Bool :=
  Nat.testBit (src (i + p.1)) (7 - p.2)

/-- The single-bit xor mask blit iteration p contributes to address a. -/
def pixMask (src : Nat → Nat) (i baseX baseY : Nat) (p : Nat × Nat) (a : Nat) : Nat :=
  if a = pixAddr baseX baseY p ∧ srcBitOf src i p then 2 ^ pixBit baseX baseY p else 0

/-- The xor of the masks of a list of blit iterations at address a. -/
def maskList (src : Nat → Nat) (i baseX baseY : Nat) (L : List (Nat × Nat)) (a : Nat) : Nat :=
  L.foldl (fun acc p => acc ^^^ pixMask src i baseX baseY p a) 0

/-- The (srcY, srcX) iteration sequence of an n-row blit. -/
def pairsUpTo (n : Nat) : List (Nat × Nat) :=
  (List.range n).flatMap fun sy => (List.range 8).map fun sx => (sy, sx)

/-- Read display pixel (x, y): bit 7 − pn % 8 of the byte at
kDisplayStart + pn / 8, pn = y * width + x (MSB-first packing). -/
def pixel (ram : Nat → Nat) (x y : Nat) : Bool :=
  Nat.testBit (ram (kDisplayStart + (y * kDisplayWidth + x) / 8))
    (7 - (y * kDisplayWidth + x) % 8)

/-- CHIP8::Handle_D (DXYN draw sprite). -/
def Handle_D (ins : Nat) (m : CHIP8) : Except String CHIP8 :=
  let vx := ins / 256 % 16
  let vy := ins / 16 % 16
  let n := ins % 16
  let baseX := m.mRegisters vx
  let baseY := m.mRegisters vy
  if m.mI + n ≥ 4096 then .error ("Blitting from outside of RAM")
  else
    let r := blit m.mRAM m.mI baseX baseY n
    .ok { m with
      mRAM := r.1
      mRegisters := updFn m.mRegisters 0xF (if r.2 then 1 else 0) }

/-- CHIP8::Handle_E (EX9E / EXA1 key skips). -/
def Handle_E (ins : Nat) (m : CHIP8) : Except String CHIP8 :=
  let reg := ins / 256 % 16
  let op := ins % 256
  let val := m.mRegisters reg
  if op = 0x9E then
    if val ≥ 16 then .error ("Invalid key code requested")
    else if m.mKeyboard val then .ok { m with mPC := (m.mPC + 2) % 65536 }
    else .ok m
  else if op = 0xA1 then
    if val ≥ 16 then .error ("Invalid key code requested")
    else if m.mKeyboard val then .ok m
    else .ok { m with mPC := (m.mPC + 2) % 65536 }
  else .error ("Unhandled instruction")

/-- CHIP8::Handle_F (timers, key wait, I arithmetic, glyphs, BCD, block
copy).  FX55/FX65 memcpy `reg + 1` bytes between mRAM[I..] and the
register file. -/
def Handle_F (ins : Nat) (m : CHIP8) : Except String CHIP8 :=
  let reg := ins / 256 % 16
  let op := ins % 256
  if op = 0x07 then .ok { m with mRegisters := updFn m.mRegisters reg m.mDelayTimer }
  else if op = 0x0A then .ok { m with mKeyboardRegister := reg }
  else if op = 0x15 then .ok { m with mDelayTimer := m.mRegisters reg }
  else if op = 0x18 then .ok { m with mSoundTimer := m.mRegisters reg }
  else if op = 0x1E then
    if m.mI + m.mRegisters reg > 4096 then .error ("Moving I to outside of RAM")
    else .ok { m with mI := (m.mI + m.mRegisters reg) % 65536 }
  else if op = 0x29 then
    if m.mRegisters reg ≥ 16 then .error ("Unknown key")
    else .ok { m with mI := kCharacterSpritesStart + m.mRegisters reg * 5 }
  else if op = 0x33 then
    if m.mI + 3 > 4096 then .error ("Storing to I outside of RAM")
    else
      let ram1 := updFn m.mRAM m.mI (m.mRegisters reg / 100 % 10)
      let ram2 := updFn ram1 (m.mI + 1) (m.mRegisters reg / 10 % 10)
      let ram3 := updFn ram2 (m.mI + 2) (m.mRegisters reg % 10)
      .ok { m with mRAM := ram3 }
  else if op = 0x55 then
    if m.mI + reg > 4096 then .error ("Copying to I outside of RAM")
    else .ok { m with mRAM := fun a =>
      if m.mI ≤ a ∧ a < m.mI + (reg + 1) then m.mRegisters (a - m.mI) else m.mRAM a }
  else if op = 0x65 then
    if m.mI + reg > 4096 then .error ("Copying from I outside of RAM")
    else .ok { m with mRegisters := fun r =>
      if r < reg + 1 then m.mRAM (m.mI + r) else m.mRegisters r }
  else .error ("Unhandled instruction")

/-- mKeyboard.any() for the 16-key bitset. -/
def anyKey (kb : Nat → Bool) : Bool := (List.range 16).any fun i => kb i

/-- The key-consume loop at the top of CHIP8::Step: for i in 0..15, if
key i is pressed, write i to mRegisters[mKeyboardRegister] and set
mKeyboardRegister to 0xFF.  The loop does not break: after the first
pressed key the later writes go to index 0xFF (out of the 16-entry
register array, undefined behaviour in C++; kept as a function update at
index 0xFF here, which leaves registers 0..15 untouched). -/
def consumeStep (mm : CHIP8) (idx : Nat) : CHIP8 :=
  if mm.mKeyboard idx then
    { mm with
      mRegisters := updFn mm.mRegisters mm.mKeyboardRegister idx
      mKeyboardRegister := 0xFF }
  else mm

def consumeKey (m : CHIP8) : CHIP8 :=
  (List.range 16).foldl consumeStep m

/-- The switch on ins / 0x1000 in CHIP8::Step.  The switch has no default
and uint16_t / 0x1000 is at most 0xF, so an (unreachable) other value
falls through doing nothing. -/
def execute (rnd ins : Nat) (m : CHIP8) : Except String CHIP8 :=
  let g := ins / 0x1000
  if g = 0x0 then Handle_0 ins m
  else if g = 0x1 then Handle_1 ins m
  else if g = 0x2 then Handle_2 ins m
  else if g = 0x3 then Handle_3 ins m
  else if g = 0x4 then Handle_4 ins m
  else if g = 0x5 then Handle_5 ins m
  else if g = 0x6 then Handle_6 ins m
  else if g = 0x7 then Handle_7 ins m
  else if g = 0x8 then Handle_8 ins m
  else if g = 0x9 then Handle_9 ins m
  else if g = 0xA then Handle_A ins m
  else if g = 0xB then Handle_B ins m
  else if g = 0xC then Handle_C rnd ins m
  else if g = 0xD then Handle_D ins m
  else if g = 0xE then Handle_E ins m
  else if g = 0xF then Handle_F ins m
  else .ok m

/-- Fetch then dispatch: the tail of one iteration of CHIP8::Step's loop. -/
def fetchExec (rnd : Nat) (m : CHIP8) : Except String CHIP8 :=
  match ReadInstruction m with
  | .error e => .error e
  | .ok im => execute rnd im.1 im.2

/-- One iteration of the loop in CHIP8::Step.  `.ok none` is the `break`
taken while awaiting a keypress with no key down; otherwise the iteration
runs to the end (note that after consuming a pending keypress the same
iteration still falls through to fetch and execute an instruction). -/
def StepIter (rnd : Nat) (m : CHIP8) : Except String (Option CHIP8) :=
  if m.mKeyboardRegister ≠ 0xFF then
    if anyKey m.mKeyboard then
      match fetchExec rnd (consumeKey m) with
      | .error e => .error e
      | .ok m2 => .ok (some m2)
    else .ok none
  else
    match fetchExec rnd m with
    | .error e => .error e
    | .ok m2 => .ok (some m2)

/-- Whether an Except is a success. -/
def isOk {ε α : Type} : Except ε α → Bool
  | .ok _ => true
  | .error _ => false

/- ### Concrete states used by counterexamples and witnesses -/

/-- Awaiting a keypress into register 5, key 3 down, instruction 0x6142
(V1 := 0x42) in memory at the program counter. -/
def c1state : CHIP8 :=
  { initCHIP8 with
    mPC := 0x200
    mRAM := fun a => if a = 0x200 then 0x61 else if a = 0x201 then 0x42 else 0
    mKeyboard := fun k => k == 3
    mKeyboardRegister := 5 }

/-- I = 4095 (reachable via opcode 0xAFFF), V0 = 0xAA, V1 = 0xBB. -/
def c2state : CHIP8 :=
  { initCHIP8 with
    mI := 4095
    mRegisters := fun r => if r = 0 then 0xAA else if r = 1 then 0xBB else 0 }

/-- V1 = 7, all other registers 0. -/
def c3state : CHIP8 :=
  { initCHIP8 with mRegisters := fun r => if r = 1 then 7 else 0 }

/-- PC = 4094: both PC and PC + 1 index valid memory bytes. -/
def c4state : CHIP8 :=
  { initCHIP8 with mPC := 4094 }

/-- Bytes 0x12 0x34 at the program counter. -/
def c4wstate : CHIP8 :=
  { initCHIP8 with
    mPC := 0x200
    mRAM := fun a => if a = 0x200 then 0x12 else if a = 0x201 then 0x34 else 0 }

/-- Frame-buffer bytes 0xF00 = 7, 0xFFE = 9 and 0xFFF = 1: the last display
byte (pixels (56..63, 31), written by the DXYN blit) is nonzero. -/
def c5state : CHIP8 :=
  { initCHIP8 with
    mRAM := fun a => if a = 0xFFF then 1 else if a = 0xF00 then 7 else if a = 0xFFE then 9 else 0 }

/-- Instruction 0x2300 (call 0x300) at PC = 0x200, empty stack. -/
def c6wstate : CHIP8 :=
  { initCHIP8 with
    mPC := 0x200
    mRAM := fun a => if a = 0x200 then 0x23 else 0 }

/-- One stack frame holding the return address 0x202. -/
def c6wstate2 : CHIP8 :=
  { initCHIP8 with
    mStack := 1
    mStackFrames := fun k => if k = 0 then 0x202 else 0 }

/-- Same program as c6wstate but with the 24-entry stack already full. -/
def c6wfull : CHIP8 :=
  { c6wstate with mStack := 24 }

/-- V1 = 10, V2 = 3. -/
def c7state : CHIP8 :=
  { initCHIP8 with mRegisters := fun r => if r = 1 then 10 else if r = 2 then 3 else 0 }

/-- Sprite byte 0xFF at I = 0x200, display byte 0xF00 = 0xA5, V0 = V1 = 0. -/
def c8state : CHIP8 :=
  { initCHIP8 with
    mI := 0x200
    mRAM := fun a => if a = 0x200 then 0xFF else if a = 0xF00 then 0xA5 else 0 }

/-- Sprite bytes 0xFF 0xFF at I = 0x200, V0 = 60, V1 = 30: a draw at
(60, 30) crosses the right display edge. -/
def c10state : CHIP8 :=
  { initCHIP8 with
    mI := 0x200
    mRegisters := fun r => if r = 0 then 60 else if r = 1 then 30 else 0
    mRAM := fun a => if a = 0x200 then 0xFF else if a = 0x201 then 0xFF else 0 }

/- ### Theorems -/

/-- Claim C9: loading a program image of size S as the primary species
(offset 0x200) with S + 0x200 ≥ 4096 returns failure and leaves the whole
machine state (PC, memory, everything) unchanged. -/
theorem c9_load_too_large_fails (data : List Nat) (m : CHIP8)
    (h : data.length + 0x200 ≥ 4096) :
    Load data Program.CHIP8 m = (false, m) := by
  have h2 : ¬ (data.length + 0x200 < 4096) := by omega
  unfold Load
  rw [show progOffset Program.CHIP8 = 0x200 from rfl]
  exact if_neg h2

/-- Witness for c9_load_too_large_fails: a 3584-byte image (3584 + 0x200 =
4096) is rejected without touching the freshly constructed machine. -/
theorem c9_load_too_large_fails_witness :
    Load (List.replicate 3584 0) Program.CHIP8 initCHIP8 = (false, initCHIP8) :=
  c9_load_too_large_fails _ _ (by rw [List.length_replicate])

/-- Claim C2 (code bug witness): with I = 4095 the block store 0xF155
(registers 0..1, bytes I..I+1) passes the bounds check `mI + reg >
mRAM.size()` because 4095 + 1 = 4096 is not greater than 4096, and then
copies V1 to memory address 4096 — one past the 4096-byte extent, so the
operation neither faults nor stays inside memory, contradicting the claim. -/
theorem c2_block_store_writes_out_of_bounds :
    (Handle_F 0xF155 c2state).map (fun m => (m.mRAM 4095, m.mRAM 4096)) = .ok (0xAA, 0xBB) := by
  decide

/-- Claim C5 (code bug witness): executing clear-display (0x00E0) zeroes
only kDisplaySize = 0x00FF = 255 bytes starting at 0xF00, so display bytes
0xF00 and 0xFFE are cleared but byte 0xFFF — which holds the last 8 pixels
of the 64×32 display and is written by the DXYN blit — keeps its value 1:
pixel (63, 31) is still set after the clear. -/
theorem c5_clear_display_misses_last_byte :
    (Handle_0 0x00E0 c5state).map (fun m => (m.mRAM 0xF00, m.mRAM 0xFFE, m.mRAM 0xFFF))
      = .ok (0, 0, 1) := by
  decide

/-- Claim C3 (counterexample): instruction 0x8F10 (8XY0 assign with X =
0xF) does not raise the fatal "Ordering" fault the claim requires for
every ALU-group instruction; it succeeds and copies V1 = 7 into VF. -/
theorem c3_counterexample :
    (Handle_8 0x8F10 c3state).map (fun m => (m.mRegisters 0xF, m.mRegisters 1)) = .ok (7, 7)
      ∧ isOk (Handle_8 0x8F10 c3state) = true := by
  decide

/-- Claim C3 (amended): only the flag-writing ALU instructions (8XY4,
8XY5, 8XY7, 8XY6, 8XYE) fault with "Ordering" when X or Y is 0xF; the
pure ops 8XY0/8XY1/8XY2/8XY3 never fault, even with an operand register
equal to 0xF. -/
theorem c3_ordering_fault_flag_ops (ins : Nat) (m : CHIP8) :
    ((ins % 16 = 4 ∨ ins % 16 = 5 ∨ ins % 16 = 7 ∨ ins % 16 = 6 ∨ ins % 16 = 0xE) →
      (ins / 256 % 16 = 0xF ∨ ins / 16 % 16 = 0xF) →
      Handle_8 ins m = .error ("Ordering"))
    ∧ (ins % 16 ≤ 3 → isOk (Handle_8 ins m) = true) := by
  constructor
  · intro hop hreg
    rcases hop with h | h | h | h | h <;> simp [Handle_8, h, hreg]
  · intro hop
    have h : ins % 16 = 0 ∨ ins % 16 = 1 ∨ ins % 16 = 2 ∨ ins % 16 = 3 := by omega
    rcases h with h | h | h | h <;> simp [Handle_8, h, isOk]

/-- Witness for c3_ordering_fault_flag_ops: 0x8FF4 (add with X = Y = 0xF)
faults with "Ordering"; 0x8FF1 (OR with X = Y = 0xF) succeeds. -/
theorem c3_ordering_fault_flag_ops_witness :
    Handle_8 0x8FF4 initCHIP8 = .error ("Ordering")
      ∧ isOk (Handle_8 0x8FF1 initCHIP8) = true :=
  ⟨(c3_ordering_fault_flag_ops 0x8FF4 initCHIP8).1 (by decide) (by decide),
   (c3_ordering_fault_flag_ops 0x8FF1 initCHIP8).2 (by decide)⟩

/-- Claim C4 (counterexample): at PC = 4094 both PC and PC + 1 are inside
the 4096-byte memory, yet the fetch faults, because the source checks
`mPC + 2 >= mRAM.size()`. -/
theorem c4_counterexample :
    4094 + 1 < 4096
      ∧ (ReadInstruction c4state).map (fun im => im.1) = .error ("Program counter left RAM") := by
  decide

/-- Claim C4 (amended): instruction fetch faults iff PC + 2 ≥ 4096
(i.e. PC ≥ 4094); for PC ≤ 4093 it succeeds, combines the two bytes
big-endian (byte at PC is the high byte) and advances PC by 2. -/
theorem c4_fetch_spec (m : CHIP8)
    (h1 : m.mRAM m.mPC < 256) (h2 : m.mRAM (m.mPC + 1) < 256) :
    (m.mPC + 2 ≥ 4096 → ReadInstruction m = .error ("Program counter left RAM"))
    ∧ (m.mPC + 2 < 4096 →
        ReadInstruction m
          = .ok (m.mRAM m.mPC * 256 + m.mRAM (m.mPC + 1), { m with mPC := m.mPC + 2 })) := by
  constructor
  · intro h
    simp [ReadInstruction, h]
  · intro h
    have hge : ¬ (m.mPC + 2 ≥ 4096) := by omega
    have hmod : (m.mPC + 2) % 65536 = m.mPC + 2 := Nat.mod_eq_of_lt (by omega)
    have hb : bswap (m.mRAM m.mPC + m.mRAM (m.mPC + 1) * 256)
        = m.mRAM m.mPC * 256 + m.mRAM (m.mPC + 1) := by
      unfold bswap
      omega
    simp [ReadInstruction, hge, hmod, hb]

/-- Witness for c4_fetch_spec: bytes 0x12 0x34 at PC = 0x200 fetch as the
big-endian instruction 0x1234 with PC advanced to 0x202. -/
theorem c4_fetch_spec_witness :
    ReadInstruction c4wstate = .ok (0x1234, { c4wstate with mPC := 0x202 }) := by
  have h := (c4_fetch_spec c4wstate (by decide) (by decide)).2 (by decide)
  exact h

/-- Claim C7: subtract-with-borrow 8XY5 with operand registers X, Y ≠ 0xF
holding 8-bit values a, b sets VX to (a − b) mod 256 — written
(a + 256 − b) % 256 on Nat — and VF to 1 iff a ≥ b (no borrow), 0 iff
a < b. -/
theorem c7_subtract_with_borrow (ins : Nat) (m : CHIP8)
    (hop : ins % 16 = 5)
    (hrx : ins / 256 % 16 ≠ 0xF) (hry : ins / 16 % 16 ≠ 0xF)
    (ha : m.mRegisters (ins / 256 % 16) < 256) (hb : m.mRegisters (ins / 16 % 16) < 256) :
    (Handle_8 ins m).map (fun m2 => (m2.mRegisters (ins / 256 % 16), m2.mRegisters 0xF))
      = .ok ((m.mRegisters (ins / 256 % 16) + 256 - m.mRegisters (ins / 16 % 16)) % 256,
             if m.mRegisters (ins / 16 % 16) ≤ m.mRegisters (ins / 256 % 16) then 1 else 0) := by
  have hno : ¬ (ins / 256 % 16 = 0xF ∨ ins / 16 % 16 = 0xF) := by
    intro hc
    rcases hc with hc | hc
    · exact hrx hc
    · exact hry hc
  simp [Handle_8, hop, hno, updFn, hrx]
  by_cases hlt : m.mRegisters (ins / 256 % 16) < m.mRegisters (ins / 16 % 16)
  · simp [hlt,
      show ¬ (m.mRegisters (ins / 16 % 16) ≤ m.mRegisters (ins / 256 % 16)) from by omega,
      Except.map, updFn, hrx, hry]
  · simp [hlt,
      show m.mRegisters (ins / 16 % 16) ≤ m.mRegisters (ins / 256 % 16) from by omega,
      Except.map, updFn, hrx, hry]

/-- Witness for c7_subtract_with_borrow: 0x8125 with V1 = 10, V2 = 3
yields V1 = 7 and VF = 1. -/
theorem c7_subtract_with_borrow_witness :
    (Handle_8 0x8125 c7state).map (fun m2 => (m2.mRegisters 1, m2.mRegisters 0xF)) = .ok (7, 1) := by
  have h := c7_subtract_with_borrow 0x8125 c7state (by decide) (by decide) (by decide)
    (by decide) (by decide)
  exact h.trans (by decide)

/- ### Key-consume loop lemmas (for claim C1) -/

/-- Folding the key-consume step over keys none of which is pressed does
nothing. -/
theorem consumeFold_skip (l : List Nat) (m : CHIP8)
    (h : ∀ x ∈ l, m.mKeyboard x = false) :
    l.foldl consumeStep m = m := by
  induction l with
  | nil => rfl
  | cons x t ih =>
    have hx : m.mKeyboard x = false := h x (by simp)
    rw [List.foldl_cons, show consumeStep m x = m from by simp [consumeStep, hx]]
    exact ih fun y hy => h y (by simp [hy])

/-- Once the pending-key register is back at the 0xFF sentinel, the rest of
the key-consume loop leaves the sentinel in place and only ever writes the
(out-of-range) register index 0xFF. -/
theorem consumeFold_done (l : List Nat) (m : CHIP8)
    (h : m.mKeyboardRegister = 0xFF) :
    (l.foldl consumeStep m).mKeyboardRegister = 0xFF
    ∧ ∀ r, r ≠ 0xFF → (l.foldl consumeStep m).mRegisters r = m.mRegisters r := by
  induction l generalizing m with
  | nil => exact ⟨h, fun r _ => rfl⟩
  | cons x t ih =>
    rw [List.foldl_cons]
    by_cases hx : m.mKeyboard x
    · have hstep : consumeStep m x
          = { m with mRegisters := updFn m.mRegisters 0xFF x, mKeyboardRegister := 0xFF } := by
        simp [consumeStep, hx, h]
      rw [hstep]
      have hrec := ih { m with mRegisters := updFn m.mRegisters 0xFF x, mKeyboardRegister := 0xFF } rfl
      refine ⟨hrec.1, fun r hr => ?_⟩
      rw [hrec.2 r hr]
      simp [updFn, hr]
    · have hstep : consumeStep m x = m := by simp [consumeStep, hx]
      rw [hstep]
      exact ih m h

/-- The key-consume loop never touches the program counter, the keyboard
snapshot, memory, I, the timers or the stack. -/
theorem consumeFold_frame (l : List Nat) (m : CHIP8) :
    (l.foldl consumeStep m).mPC = m.mPC
    ∧ (l.foldl consumeStep m).mKeyboard = m.mKeyboard
    ∧ (l.foldl consumeStep m).mRAM = m.mRAM
    ∧ (l.foldl consumeStep m).mI = m.mI
    ∧ (l.foldl consumeStep m).mStack = m.mStack
    ∧ (l.foldl consumeStep m).mStackFrames = m.mStackFrames := by
  induction l generalizing m with
  | nil => exact ⟨rfl, rfl, rfl, rfl, rfl, rfl⟩
  | cons x t ih =>
    rw [List.foldl_cons]
    have hrec := ih (consumeStep m x)
    have hfields : (consumeStep m x).mPC = m.mPC
        ∧ (consumeStep m x).mKeyboard = m.mKeyboard
        ∧ (consumeStep m x).mRAM = m.mRAM
        ∧ (consumeStep m x).mI = m.mI
        ∧ (consumeStep m x).mStack = m.mStack
        ∧ (consumeStep m x).mStackFrames = m.mStackFrames := by
      by_cases hx : m.mKeyboard x <;> simp [consumeStep, hx]
    refine ⟨?_, ?_, ?_, ?_, ?_, ?_⟩
    · rw [hrec.1, hfields.1]
    · rw [hrec.2.1, hfields.2.1]
    · rw [hrec.2.2.1, hfields.2.2.1]
    · rw [hrec.2.2.2.1, hfields.2.2.2.1]
    · rw [hrec.2.2.2.2.1, hfields.2.2.2.2.1]
    · rw [hrec.2.2.2.2.2, hfields.2.2.2.2.2]

/-- Claim C1 (counterexample to the claim as stated): c1state is awaiting
a keypress into register 5 and key 3 is down.  The step does write the
lowest pressed key 3 into register 5 and reverts the sentinel to 0xFF,
but the very same iteration then fetches and executes the instruction
0x6142 at PC = 0x200: afterwards PC = 0x202 (≠ 0x200) and V1 = 0x42, so
an instruction IS fetched and executed on the consuming step. -/
theorem c1_counterexample :
    (StepIter 0 c1state).map
        (fun o => o.map fun m => (m.mPC, m.mRegisters 5, m.mKeyboardRegister, m.mRegisters 1))
      = .ok (some (0x202, 3, 0xFF, 0x42))
    ∧ c1state.mPC = 0x200 := by
  decide

/-- Claim C1 (amended): while awaiting a keypress, on the first Step
iteration whose snapshot has a pressed key, the lowest-indexed pressed key
j (scan order 0x0→0xF) is written into the recorded target register, the
sub-state reverts to normal (sentinel 0xFF), the consume phase leaves PC
untouched — and then the same iteration continues by fetching and
executing an instruction from the consumed state (rather than consuming
the keypress without executing). -/
theorem c1_key_consume_then_fetch (rnd : Nat) (m : CHIP8) (j : Nat)
    (hwait : m.mKeyboardRegister ≠ 0xFF)
    (hj : j < 16) (hjp : m.mKeyboard j = true)
    (hlow : ∀ j2, j2 < j → m.mKeyboard j2 = false) :
    (consumeKey m).mRegisters m.mKeyboardRegister = j
    ∧ (consumeKey m).mKeyboardRegister = 0xFF
    ∧ (consumeKey m).mPC = m.mPC
    ∧ StepIter rnd m = Except.map some (fetchExec rnd (consumeKey m)) := by
  have hsplit : (16 : Nat) = (j + 1) + (15 - j) := by omega
  have hrange : List.range 16
      = (List.range j ++ [j]) ++ List.map (fun x => (j + 1) + x) (List.range (15 - j)) := by
    rw [hsplit, List.range_add, List.range_succ]
  have hskip : (List.range j).foldl consumeStep m = m :=
    consumeFold_skip _ _ fun x hx => hlow x (List.mem_range.mp hx)
  have hstep : consumeStep m j
      = { m with mRegisters := updFn m.mRegisters m.mKeyboardRegister j
               , mKeyboardRegister := 0xFF } := by
    simp [consumeStep, hjp]
  have hck : consumeKey m
      = (List.map (fun x => (j + 1) + x) (List.range (15 - j))).foldl consumeStep
          { m with mRegisters := updFn m.mRegisters m.mKeyboardRegister j
                 , mKeyboardRegister := 0xFF } := by
    rw [consumeKey, hrange, List.foldl_append, List.foldl_append, hskip]
    rw [show List.foldl consumeStep m [j] = consumeStep m j from rfl, hstep]
  have hdone := consumeFold_done
    (List.map (fun x => (j + 1) + x) (List.range (15 - j)))
    { m with mRegisters := updFn m.mRegisters m.mKeyboardRegister j
           , mKeyboardRegister := 0xFF } rfl
  have hframe := consumeFold_frame
    (List.map (fun x => (j + 1) + x) (List.range (15 - j)))
    { m with mRegisters := updFn m.mRegisters m.mKeyboardRegister j
           , mKeyboardRegister := 0xFF }
  refine ⟨?_, ?_, ?_, ?_⟩
  · rw [hck, hdone.2 m.mKeyboardRegister hwait]
    simp [updFn]
  · rw [hck]
    exact hdone.1
  · rw [hck]
    exact hframe.1
  · have hany : anyKey m.mKeyboard = true := by
      rw [anyKey, List.any_eq_true]
      exact ⟨j, List.mem_range.mpr hj, hjp⟩
    rw [StepIter, if_pos hwait, if_pos hany]
    cases fetchExec rnd (consumeKey m) <;> rfl

/-- Witness for c1_key_consume_then_fetch at c1state (target register 5,
lowest pressed key 3). -/
theorem c1_key_consume_then_fetch_witness :
    (consumeKey c1state).mRegisters 5 = 3
    ∧ (consumeKey c1state).mKeyboardRegister = 0xFF
    ∧ (consumeKey c1state).mPC = 0x200
    ∧ StepIter 0 c1state = Except.map some (fetchExec 0 (consumeKey c1state)) := by
  have h := c1_key_consume_then_fetch 0 c1state 3 (by decide) (by decide) (by decide)
    (by decide)
  exact h

/-- Claim C6: a call instruction 2NNN fetched from address p pushes the
already-advanced PC = p + 2 onto the stack and jumps to NNN, for any stack
height < 24 (so for every resulting nesting depth ≤ 24); a later return
0x00EE from any state whose stack is unchanged since the call pops that
frame and restores PC to exactly p + 2, the instruction after the call;
and with the stack already holding 24 frames (the 25th nested call) the
call faults fatally. -/
theorem c6_call_return_roundtrip (rnd p nnn : Nat) (m : CHIP8)
    (hkb : m.mKeyboardRegister = 0xFF)
    (hpc : m.mPC = p)
    (hp : p + 2 < 4096)
    (hnnn : nnn < 4096)
    (hhi : m.mRAM p = 0x20 + nnn / 256)
    (hlo : m.mRAM (p + 1) = nnn % 256) :
    (m.mStack < 24 →
      (StepIter rnd m).map
          (fun o => o.map fun m2 => (m2.mPC, m2.mStack, m2.mStackFrames m.mStack))
        = .ok (some (nnn, m.mStack + 1, p + 2)))
    ∧ (∀ m2 : CHIP8, m2.mStack = m.mStack + 1 → m2.mStackFrames m.mStack = p + 2 →
        (Handle_0 0x00EE m2).map (fun m3 => m3.mPC) = .ok (p + 2))
    ∧ (m.mStack = 24 → StepIter rnd m = .error ("Out of stack frames")) := by
  have hnot : ¬ (m.mPC + 2 ≥ 4096) := by omega
  have hins : bswap (m.mRAM m.mPC + m.mRAM (m.mPC + 1) * 256) = 0x2000 + nnn := by
    rw [hpc, hhi, hlo]
    unfold bswap
    have h1 : (0x20 + nnn / 256 + nnn % 256 * 256) / 256 = nnn % 256 := by omega
    have h2 : (0x20 + nnn / 256 + nnn % 256 * 256) % 256 = 0x20 + nnn / 256 := by omega
    rw [h1, h2]
    omega
  have hmod : (m.mPC + 2) % 65536 = p + 2 := by
    rw [hpc]
    exact Nat.mod_eq_of_lt (by omega)
  have hread : ReadInstruction m = .ok (0x2000 + nnn, { m with mPC := p + 2 }) := by
    rw [ReadInstruction, if_neg hnot, hins, hmod]
  have hg0 : (0x2000 + nnn) / 4096 = 2 := by omega
  have hfe : fetchExec rnd m = Handle_2 (0x2000 + nnn) { m with mPC := p + 2 } := by
    rw [fetchExec, hread]
    simp [execute, hg0]
  have hstep : StepIter rnd m
      = match fetchExec rnd m with
        | .error e => .error e
        | .ok m2 => .ok (some m2) := by
    rw [StepIter, if_neg (by simp [hkb])]
  have hmm : (0x2000 + nnn) % 4096 = nnn := by omega
  refine ⟨?_, ?_, ?_⟩
  · intro hlt
    rw [hstep, hfe]
    simp [Handle_2, show ¬ (m.mStack + 1 > 24) from by omega, hmm, Except.map, updFn]
  · intro m2 hs hf
    have hz : ¬ (m2.mStack = 0) := by omega
    have hm1 : m2.mStack - 1 = m.mStack := by omega
    simp [Handle_0, hz, hm1, hf, Except.map, show ¬ (p + 2 ≥ 4096) from by omega]
  · intro h24
    rw [hstep, hfe]
    simp [Handle_2, h24]

/-- Witness for c6_call_return_roundtrip: in c6wstate the call 0x2300 at
PC = 0x200 pushes 0x202 and jumps to 0x300; a return from c6wstate2
(stack of one frame holding 0x202) restores PC = 0x202; and c6wfull
(stack height 24) faults on the call. -/
theorem c6_call_return_roundtrip_witness :
    (StepIter 0 c6wstate).map
        (fun o => o.map fun m2 => (m2.mPC, m2.mStack, m2.mStackFrames 0))
      = .ok (some (0x300, 1, 0x202))
    ∧ (Handle_0 0x00EE c6wstate2).map (fun m3 => m3.mPC) = .ok 0x202
    ∧ StepIter 0 c6wfull = .error ("Out of stack frames") := by
  have hA := c6_call_return_roundtrip 0 0x200 0x300 c6wstate rfl rfl (by decide) (by decide)
    (by decide) (by decide)
  have hB := c6_call_return_roundtrip 0 0x200 0x300 c6wfull rfl rfl (by decide) (by decide)
    (by decide) (by decide)
  exact ⟨hA.1 (by decide), hA.2.1 c6wstate2 (by decide) (by decide), hB.2.2 (by decide)⟩

/- ### Generic fold lemmas -/

/-- Two folds agree when their step functions agree on the list members. -/
theorem foldl_congr_mem {α β : Type} (l : List α) (f g : β → α → β) (b : β)
    (h : ∀ a ∈ l, ∀ acc, f acc a = g acc a) :
    l.foldl f b = l.foldl g b := by
  induction l generalizing b with
  | nil => rfl
  | cons x t ih =>
    rw [List.foldl_cons, List.foldl_cons, h x (by simp) b]
    exact ih _ fun a ha acc => h a (by simp [ha]) acc

/-- A fold over a flatMap is the nested fold. -/
theorem foldl_over_flatMap {α β γ : Type} (l : List α) (f : α → List β) (g : γ → β → γ)
    (init : γ) :
    (l.flatMap f).foldl g init = l.foldl (fun acc a => (f a).foldl g acc) init := by
  induction l generalizing init with
  | nil => rfl
  | cons x t ih =>
    rw [List.flatMap_cons, List.foldl_append, List.foldl_cons, ih]

/-- Pull the initial accumulator out of an xor fold. -/
theorem xorFold_init {α : Type} (L : List α) (g : α → Nat) (c : Nat) :
    L.foldl (fun acc p => acc ^^^ g p) c = c ^^^ L.foldl (fun acc p => acc ^^^ g p) 0 := by
  induction L generalizing c with
  | nil => simp
  | cons x t ih =>
    rw [List.foldl_cons, List.foldl_cons, ih (c ^^^ g x), ih (0 ^^^ g x)]
    rw [Nat.zero_xor, Nat.xor_assoc]

/-- testBit distributes over an xor fold. -/
theorem testBit_xorFold {α : Type} (L : List α) (g : α → Nat) (c k : Nat) :
    Nat.testBit (L.foldl (fun acc p => acc ^^^ g p) c) k
      = L.foldl (fun acc p => Bool.xor acc (Nat.testBit (g p) k)) (Nat.testBit c k) := by
  induction L generalizing c with
  | nil => rfl
  | cons x t ih =>
    rw [List.foldl_cons, List.foldl_cons, ih, Nat.testBit_xor]

/-- A Bool-xor fold over entries that are all false is the identity. -/
theorem boolXorFold_false {α : Type} (L : List α) (h : α → Bool) (c : Bool)
    (hall : ∀ x ∈ L, h x = false) :
    L.foldl (fun acc x => Bool.xor acc (h x)) c = c := by
  induction L generalizing c with
  | nil => rfl
  | cons x t ih =>
    rw [List.foldl_cons, hall x (by simp), Bool.xor_false]
    exact ih _ fun y hy => hall y (by simp [hy])

/-- A Bool-xor fold over a range with a single possibly-true position j0
evaluates to the contribution of j0. -/
theorem boolXorFold_range_single (mN j0 : Nat) (g : Nat → Bool) (c : Bool)
    (hj : j0 < mN) (hother : ∀ j, j < mN → j ≠ j0 → g j = false) :
    (List.range mN).foldl (fun acc j => Bool.xor acc (g j)) c = Bool.xor c (g j0) := by
  induction mN generalizing c with
  | zero => omega
  | succ mN ih =>
    rw [List.range_succ, List.foldl_append]
    by_cases hj0 : j0 = mN
    · rw [boolXorFold_false (List.range mN) g c
        (fun j hjm => hother j (by have := List.mem_range.mp hjm; omega)
          (by have := List.mem_range.mp hjm; omega))]
      rw [hj0]
      rfl
    · have hg : g mN = false := hother mN (by omega) (by omega)
      have hj2 : j0 < mN := by omega
      rw [ih c hj2 (fun j hjm hne => hother j (by omega) hne)]
      show Bool.xor (Bool.xor c (g j0)) (g mN) = Bool.xor c (g j0)
      rw [hg, Bool.xor_false]

/- ### Blit lemmas -/

/-- The blit iteration order flattened into one list. -/
theorem blit_eq_pairs (ram : Nat → Nat) (i baseX baseY n : Nat) :
    blit ram i baseX baseY n = (pairsUpTo n).foldl (blitStep i baseX baseY) (ram, false) := by
  rw [blit, pairsUpTo, foldl_over_flatMap]
  apply foldl_congr_mem
  intro sy _ acc
  exact (List.foldl_map (fun sx => (sy, sx)) (blitStep i baseX baseY) (List.range 8) acc).symm

/-- Membership in the iteration list. -/
theorem mem_pairsUpTo (p : Nat × Nat) (n : Nat) :
    p ∈ pairsUpTo n ↔ p.1 < n ∧ p.2 < 8 := by
  rw [pairsUpTo]
  constructor
  · intro hp
    rcases List.mem_flatMap.mp hp with ⟨sy, hsy, hmem⟩
    rcases List.mem_map.mp hmem with ⟨sx, hsx, hco⟩
    rw [← hco]
    exact ⟨List.mem_range.mp hsy, List.mem_range.mp hsx⟩
  · intro ⟨h1, h2⟩
    exact List.mem_flatMap.mpr ⟨p.1, List.mem_range.mpr h1,
      List.mem_map.mpr ⟨p.2, List.mem_range.mpr h2, rfl⟩⟩

/-- Every blit write lands inside the 256 display bytes. -/
theorem pixAddr_range (baseX baseY : Nat) (p : Nat × Nat) :
    kDisplayStart ≤ pixAddr baseX baseY p ∧ pixAddr baseX baseY p < kDisplayStart + 256 := by
  rw [pixAddr, pixelNumOf, kDisplayStart, kDisplayWidth, kDisplayHeight]
  have h1 : (p.1 + baseY) % 32 < 32 := Nat.mod_lt _ (by omega)
  have h2 : (p.2 + baseX) % 64 < 64 := Nat.mod_lt _ (by omega)
  omega

/-- One blit iteration xors one single-bit mask into RAM (pointwise). -/
theorem blitStep_fst_apply (i baseX baseY : Nat) (acc : (Nat → Nat) × Bool) (p : Nat × Nat)
    (a : Nat) :
    (blitStep i baseX baseY acc p).1 a = acc.1 a ^^^ pixMask acc.1 i baseX baseY p a := by
  simp only [blitStep, pixMask, pixAddr, pixBit, pixelNumOf, srcBitOf, updFn,
    kDisplayStart, kDisplayWidth, kDisplayHeight]
  have hmod : (p.1 + baseY) % 32 * 64 + (p.2 + baseX) % 64
        - 8 * (((p.1 + baseY) % 32 * 64 + (p.2 + baseX) % 64) / 8)
      = ((p.1 + baseY) % 32 * 64 + (p.2 + baseX) % 64) % 8 := by
    omega
  rw [hmod]
  by_cases ha : a = 0x0F00 + ((p.1 + baseY) % 32 * 64 + (p.2 + baseX) % 64) / 8
  · by_cases hs : Nat.testBit (acc.1 (i + p.1)) (7 - p.2) <;> simp [ha, hs]
  · simp [ha]

/-- One blit iteration xors one single-bit mask into RAM. -/
theorem blitStep_fst (i baseX baseY : Nat) (acc : (Nat → Nat) × Bool) (p : Nat × Nat) :
    (blitStep i baseX baseY acc p).1
      = fun a => acc.1 a ^^^ pixMask acc.1 i baseX baseY p a :=
  funext fun a => blitStep_fst_apply i baseX baseY acc p a

/-- An iteration mask vanishes at every address outside the display region. -/
theorem pixMask_outside (src : Nat → Nat) (i baseX baseY : Nat) (p : Nat × Nat) (a : Nat)
    (h : a < kDisplayStart ∨ kDisplayStart + 256 ≤ a) :
    pixMask src i baseX baseY p a = 0 := by
  have hr := pixAddr_range baseX baseY p
  simp only [pixMask]
  rw [if_neg]
  intro hc
  have := hc.1
  omega

/-- A blit iteration leaves every byte outside the display region alone. -/
theorem blitStep_frame (i baseX baseY : Nat) (acc : (Nat → Nat) × Bool) (p : Nat × Nat)
    (a : Nat) (h : a < kDisplayStart ∨ kDisplayStart + 256 ≤ a) :
    (blitStep i baseX baseY acc p).1 a = acc.1 a := by
  rw [blitStep_fst_apply, pixMask_outside acc.1 i baseX baseY p a h, Nat.xor_zero]

/-- The whole blit leaves every byte outside the display region alone. -/
theorem foldBlit_frame (i baseX baseY : Nat) (L : List (Nat × Nat))
    (acc : (Nat → Nat) × Bool) (a : Nat) (h : a < kDisplayStart ∨ kDisplayStart + 256 ≤ a) :
    (L.foldl (blitStep i baseX baseY) acc).1 a = acc.1 a := by
  induction L generalizing acc with
  | nil => rfl
  | cons p t ih =>
    rw [List.foldl_cons, ih (blitStep i baseX baseY acc p)]
    exact blitStep_frame i baseX baseY acc p a h

/-- The iteration masks only depend on the source bytes the iterations read. -/
theorem maskList_congr (src1 src2 : Nat → Nat) (i baseX baseY : Nat)
    (L : List (Nat × Nat)) (a : Nat)
    (h : ∀ p ∈ L, src1 (i + p.1) = src2 (i + p.1)) :
    maskList src1 i baseX baseY L a = maskList src2 i baseX baseY L a := by
  rw [maskList, maskList]
  apply foldl_congr_mem
  intro p hp acc
  simp only [pixMask, srcBitOf]
  simp only [h p hp]

/-- Blit as a pure xor with a mask that only depends on the initial RAM,
provided the source bytes lie outside the display region. -/
theorem foldBlit_spec (i baseX baseY : Nat) (L : List (Nat × Nat)) (ram : Nat → Nat)
    (fl : Bool)
    (h : ∀ p ∈ L, i + p.1 < kDisplayStart ∨ kDisplayStart + 256 ≤ i + p.1) :
    (L.foldl (blitStep i baseX baseY) (ram, fl)).1
      = fun a => ram a ^^^ maskList ram i baseX baseY L a := by
  induction L generalizing ram fl with
  | nil =>
    funext a
    rw [maskList]
    show ram a = ram a ^^^ 0
    rw [Nat.xor_zero]
  | cons p t ih =>
    have hstep : blitStep i baseX baseY (ram, fl) p
        = (fun a0 => ram a0 ^^^ pixMask ram i baseX baseY p a0,
           (blitStep i baseX baseY (ram, fl) p).2) := by
      rw [← blitStep_fst i baseX baseY (ram, fl) p]
    funext a
    rw [List.foldl_cons, hstep,
      ih (fun a0 => ram a0 ^^^ pixMask ram i baseX baseY p a0)
        ((blitStep i baseX baseY (ram, fl) p).2)
        (fun q hq => h q (by simp [hq]))]
    show ram a ^^^ pixMask ram i baseX baseY p a
        ^^^ maskList (fun a0 => ram a0 ^^^ pixMask ram i baseX baseY p a0) i baseX baseY t a
      = ram a ^^^ maskList ram i baseX baseY (p :: t) a
    have hsrc2 : ∀ q ∈ t,
        (fun a0 => ram a0 ^^^ pixMask ram i baseX baseY p a0) (i + q.1) = ram (i + q.1) := by
      intro q hq
      have hq2 := h q (by simp [hq])
      show ram (i + q.1) ^^^ pixMask ram i baseX baseY p (i + q.1) = ram (i + q.1)
      rw [pixMask_outside ram i baseX baseY p (i + q.1) hq2, Nat.xor_zero]
    rw [maskList_congr (fun a0 => ram a0 ^^^ pixMask ram i baseX baseY p a0) ram
      i baseX baseY t a hsrc2]
    have hcons : maskList ram i baseX baseY (p :: t) a
        = pixMask ram i baseX baseY p a ^^^ maskList ram i baseX baseY t a := by
      rw [maskList, List.foldl_cons, xorFold_init, Nat.zero_xor]
      rfl
    rw [hcons, Nat.xor_assoc]

/-- Pointwise form of foldBlit_spec for the whole blit. -/
theorem blit_spec_apply (ram : Nat → Nat) (i baseX baseY n : Nat)
    (h : ∀ p ∈ pairsUpTo n, i + p.1 < kDisplayStart ∨ kDisplayStart + 256 ≤ i + p.1)
    (a : Nat) :
    (blit ram i baseX baseY n).1 a = ram a ^^^ maskList ram i baseX baseY (pairsUpTo n) a := by
  rw [blit_eq_pairs, foldBlit_spec i baseX baseY (pairsUpTo n) ram false h]

/-- Pointwise frame lemma for the whole blit. -/
theorem blit_frame_apply (ram : Nat → Nat) (i baseX baseY n : Nat) (a : Nat)
    (h : a < kDisplayStart ∨ kDisplayStart + 256 ≤ a) :
    (blit ram i baseX baseY n).1 a = ram a := by
  rw [blit_eq_pairs]
  exact foldBlit_frame i baseX baseY (pairsUpTo n) (ram, false) a h

/-- Claim C8: drawing the same sprite twice in succession restores the
frame buffer (indeed all of RAM) exactly.  Hypotheses: the N source bytes
lie outside the frame-buffer region (the claim's condition, so the first
draw does not alter its own source), the draw is in bounds (both draws
execute), and the operand registers are not 0xF — the draw writes only
register 0xF, so this is exactly the claim's "with identical registers". -/
theorem c8_double_draw_restores (ins : Nat) (m : CHIP8)
    (hsrc : ∀ k, k < ins % 16 →
      m.mI + k < kDisplayStart ∨ kDisplayStart + 256 ≤ m.mI + k)
    (hbound : m.mI + ins % 16 < 4096)
    (hvx : ins / 256 % 16 ≠ 0xF) (hvy : ins / 16 % 16 ≠ 0xF)
    (a : Nat) :
    ((Handle_D ins m).bind (Handle_D ins)).map (fun m2 => m2.mRAM a) = .ok (m.mRAM a) := by
  have hnot : ¬ (m.mI + ins % 16 ≥ 4096) := by omega
  have hpairs : ∀ p ∈ pairsUpTo (ins % 16),
      m.mI + p.1 < kDisplayStart ∨ kDisplayStart + 256 ≤ m.mI + p.1 :=
    fun p hp => hsrc p.1 ((mem_pairsUpTo p _).mp hp).1
  simp only [Handle_D, hnot, if_false, Except.bind, Except.map, updFn, hvx, hvy,
    if_neg hvx, if_neg hvy]
  have hstay : ∀ q ∈ pairsUpTo (ins % 16),
      (blit m.mRAM m.mI (m.mRegisters (ins / 256 % 16)) (m.mRegisters (ins / 16 % 16))
        (ins % 16)).1 (m.mI + q.1) = m.mRAM (m.mI + q.1) :=
    fun q hq => blit_frame_apply _ _ _ _ _ _ (hpairs q hq)
  rw [blit_spec_apply _ _ _ _ _ hpairs a,
    maskList_congr _ m.mRAM m.mI (m.mRegisters (ins / 256 % 16))
      (m.mRegisters (ins / 16 % 16)) (pairsUpTo (ins % 16)) a hstay,
    blit_spec_apply _ _ _ _ _ hpairs a,
    Nat.xor_assoc, Nat.xor_self, Nat.xor_zero]

/-- Witness for c8_double_draw_restores: drawing the byte 0xFF from
I = 0x200 at (0, 0) twice leaves display byte 0xF00 at its initial 0xA5. -/
theorem c8_double_draw_restores_witness :
    ((Handle_D 0xD011 c8state).bind (Handle_D 0xD011)).map (fun m2 => m2.mRAM 0xF00)
      = .ok (c8state.mRAM 0xF00) :=
  c8_double_draw_restores 0xD011 c8state (by decide) (by decide) (by decide) (by decide) 0xF00

/-- Two blit iterations with row indices below 16 and column indices below
8 that target the same byte and the same bit are the same iteration. -/
theorem pix_target_inj (baseX baseY sy sx qy qx : Nat)
    (hsy : sy < 16) (hsx : sx < 8) (hqy : qy < 16) (hqx : qx < 8)
    (haddr : pixAddr baseX baseY (qy, qx) = pixAddr baseX baseY (sy, sx))
    (hbit : pixBit baseX baseY (qy, qx) = pixBit baseX baseY (sy, sx)) :
    qy = sy ∧ qx = sx := by
  simp only [pixAddr, pixBit, pixelNumOf, kDisplayStart, kDisplayWidth, kDisplayHeight]
    at haddr hbit
  constructor <;> omega

/-- Reading the wrapped destination pixel of iteration (sy, sx) is reading
bit pixBit of the byte at pixAddr. -/
theorem pixel_eq_testBit (ram : Nat → Nat) (baseX baseY sy sx : Nat) :
    pixel ram ((sx + baseX) % kDisplayWidth) ((sy + baseY) % kDisplayHeight)
      = Nat.testBit (ram (pixAddr baseX baseY (sy, sx))) (pixBit baseX baseY (sy, sx)) :=
  rfl

/-- At the byte and bit targeted by iteration (sy, sx), the accumulated
blit mask of an n-row blit (n ≤ 16) is exactly that iteration's source
bit: every other iteration hits a different byte or bit. -/
theorem maskList_testBit_single (src : Nat → Nat) (i baseX baseY n sy sx : Nat)
    (hn : n ≤ 16) (hsy : sy < n) (hsx : sx < 8) :
    Nat.testBit (maskList src i baseX baseY (pairsUpTo n) (pixAddr baseX baseY (sy, sx)))
      (pixBit baseX baseY (sy, sx)) = srcBitOf src i (sy, sx) := by
  have hgB : ∀ qy qx, qy < n → qx < 8 → ¬ (qy = sy ∧ qx = sx) →
      Nat.testBit (pixMask src i baseX baseY (qy, qx) (pixAddr baseX baseY (sy, sx)))
        (pixBit baseX baseY (sy, sx)) = false := by
    intro qy qx hqy hqx hne
    by_cases haddr : pixAddr baseX baseY (sy, sx) = pixAddr baseX baseY (qy, qx)
    · by_cases hs : srcBitOf src i (qy, qx)
      · simp only [pixMask]
        rw [if_pos ⟨haddr, hs⟩, Nat.testBit_two_pow]
        simp only [decide_eq_false_iff_not]
        intro hbit
        exact hne (pix_target_inj baseX baseY sy sx qy qx (by omega) hsx (by omega) hqx
          haddr.symm hbit)
      · simp only [pixMask]
        rw [if_neg (fun hc => hs hc.2), Nat.zero_testBit]
    · simp only [pixMask]
      rw [if_neg (fun hc => haddr hc.1), Nat.zero_testBit]
  have hgBp : Nat.testBit (pixMask src i baseX baseY (sy, sx) (pixAddr baseX baseY (sy, sx)))
      (pixBit baseX baseY (sy, sx)) = srcBitOf src i (sy, sx) := by
    by_cases hs : srcBitOf src i (sy, sx)
    · simp only [pixMask]
      rw [if_pos ⟨trivial, hs⟩, Nat.testBit_two_pow]
      simp [hs]
    · simp only [pixMask]
      rw [if_neg (fun hc => hs hc.2), Nat.zero_testBit]
      simp only [Bool.not_eq_true] at hs
      rw [hs]
  rw [maskList, testBit_xorFold, Nat.zero_testBit, pairsUpTo, foldl_over_flatMap]
  have hout : ∀ sy2 ∈ List.range n, ∀ acc : Bool,
      ((List.range 8).map fun sx2 => (sy2, sx2)).foldl
          (fun acc2 p => Bool.xor acc2
            (Nat.testBit (pixMask src i baseX baseY p (pixAddr baseX baseY (sy, sx)))
              (pixBit baseX baseY (sy, sx)))) acc
        = Bool.xor acc (if sy2 = sy then srcBitOf src i (sy, sx) else false) := by
    intro sy2 hsy2 acc
    rw [List.foldl_map]
    by_cases hrow : sy2 = sy
    · subst hrow
      rw [boolXorFold_range_single 8 sx
        (fun sx2 => Nat.testBit (pixMask src i baseX baseY (sy2, sx2)
          (pixAddr baseX baseY (sy2, sx))) (pixBit baseX baseY (sy2, sx))) acc hsx
        (fun j hj hne => hgB sy2 j (List.mem_range.mp hsy2) hj (fun hc => hne hc.2))]
      rw [if_pos rfl, hgBp]
    · rw [boolXorFold_false _ _ acc
        (fun x hx => hgB sy2 x (List.mem_range.mp hsy2) (List.mem_range.mp hx)
          (fun hc => hrow hc.1))]
      rw [if_neg hrow, Bool.xor_false]
  rw [foldl_congr_mem _ _
    (fun acc sy2 => Bool.xor acc (if sy2 = sy then srcBitOf src i (sy, sx) else false))
    false hout]
  rw [boolXorFold_range_single n sy _ false hsy (fun j _ hne => if_neg hne)]
  rw [if_pos rfl, Bool.false_xor]

/-- Claim C10: the draw-sprite blit uses the wrap edge policy, never clip:
for every source row sy < N and column sx < 8, the destination coordinates
are reduced modulo 64 and 32, and the display pixel at
((sx + VX) % 64, (sy + VY) % 32) afterwards equals its old value xor-ed
with source bit 7 − sx of the byte at I + sy — so every one of the 8×N
source bits lands on some display pixel and none is dropped at the edge.
(Source bytes outside the frame buffer, so the blit does not rewrite its
own source; in-bounds so the draw executes.) -/
theorem c10_draw_wrap_policy (ins : Nat) (m : CHIP8) (sy sx : Nat)
    (hsy : sy < ins % 16) (hsx : sx < 8)
    (hbound : m.mI + ins % 16 < 4096)
    (hsrc : ∀ k, k < ins % 16 →
      m.mI + k < kDisplayStart ∨ kDisplayStart + 256 ≤ m.mI + k) :
    (Handle_D ins m).map (fun m1 =>
        pixel m1.mRAM ((sx + m.mRegisters (ins / 256 % 16)) % kDisplayWidth)
          ((sy + m.mRegisters (ins / 16 % 16)) % kDisplayHeight))
      = .ok (Bool.xor
          (pixel m.mRAM ((sx + m.mRegisters (ins / 256 % 16)) % kDisplayWidth)
            ((sy + m.mRegisters (ins / 16 % 16)) % kDisplayHeight))
          (Nat.testBit (m.mRAM (m.mI + sy)) (7 - sx))) := by
  have hnot : ¬ (m.mI + ins % 16 ≥ 4096) := by omega
  have hpairs : ∀ p ∈ pairsUpTo (ins % 16),
      m.mI + p.1 < kDisplayStart ∨ kDisplayStart + 256 ≤ m.mI + p.1 :=
    fun p hp => hsrc p.1 ((mem_pairsUpTo p _).mp hp).1
  simp only [Handle_D, hnot, if_false, Except.map]
  rw [pixel_eq_testBit, pixel_eq_testBit,
    blit_spec_apply _ _ _ _ _ hpairs _,
    Nat.testBit_xor,
    maskList_testBit_single m.mRAM m.mI (m.mRegisters (ins / 256 % 16))
      (m.mRegisters (ins / 16 % 16)) (ins % 16) sy sx (by omega) hsy hsx]
  rfl

/-- Witness for c10_draw_wrap_policy: drawing 0xFF 0xFF from I = 0x200 at
base (60, 30), row 1 column 0 lands on the wrapped pixel (60, 31) and
flips it on. -/
theorem c10_draw_wrap_policy_witness :
    (Handle_D 0xD012 c10state).map (fun m1 =>
        pixel m1.mRAM ((0 + c10state.mRegisters (0xD012 / 256 % 16)) % kDisplayWidth)
          ((1 + c10state.mRegisters (0xD012 / 16 % 16)) % kDisplayHeight))
      = .ok (Bool.xor
          (pixel c10state.mRAM ((0 + c10state.mRegisters (0xD012 / 256 % 16)) % kDisplayWidth)
            ((1 + c10state.mRegisters (0xD012 / 16 % 16)) % kDisplayHeight))
          (Nat.testBit (c10state.mRAM (c10state.mI + 1)) (7 - 0))) :=
  c10_draw_wrap_policy 0xD012 c10state 1 0 (by decide) (by decide) (by decide) (by decide)

end emu
